import Mathlib

/-!
Shallow embedding of the authentication and session code of the
ai-resume-analyser repository: the database helpers of
`src/app/lib/db.ts`, the HTTP auth handler of `src/api/auth.ts`, and
the state-token codec plus session helpers of `src/app/lib/auth.ts`
(that file is absent from the sources; the definitions taken from it
are modelled from the specification and marked as such).

Timestamps are naturals (`now` stands for `CURRENT_TIMESTAMP` /
`Date.now()`); the relational store is a pair of lists of rows.
-/

namespace AuthSpec

/-- A row of the `users` table.  Columns used by the auth flow:
`id` (internal key), `uuid` (unique external identifier), `name`,
`email` (nullable), plus the two timestamps. -/
structure UserRow where
  id : Nat
  uuid : String
  name : String
  email : Option String
  createdAt : Nat
  updatedAt : Nat
  deriving DecidableEq, Repr

/-- A row of the `sessions` table. -/
structure SessionRow where
  userId : Nat
  sessionToken : String
  expiresAt : Nat
  deriving DecidableEq, Repr

/-- The relational store backing the auth flow: the `users` and
`sessions` tables, plus the id sequence feeding `users.id`. -/
structure Store where
  users : List UserRow
  sessions : List SessionRow
  nextId : Nat
  deriving DecidableEq, Repr

/-- Models the TypeScript expression `email || null` used by
`createUser`: an absent or empty-string email is stored as SQL NULL. -/
def emailOrNull (email : Option String) : Option String :=
  match email with
  | none => none
  | some e => if e = "" then none else some e

/-- `createUser` of `src/app/lib/db.ts`:
`INSERT INTO users (uuid, name, email) VALUES ... ON CONFLICT (uuid)
DO UPDATE SET name = ..., email = ..., updated_at = CURRENT_TIMESTAMP
RETURNING *`.  `now` stands for `CURRENT_TIMESTAMP`; the conflict
branch updates every row keyed by `uuid` (the unique constraint makes
at most one exist) and the affected row is returned. -/
def createUser (st : Store) (uuid username : String) (email : Option String)
    (now : Nat) : Store × UserRow :=
  match st.users.find? (fun u => u.uuid == uuid) with
  | some u =>
    let u' : UserRow :=
      { u with name := username, email := emailOrNull email, updatedAt := now }
    ({ st with users := st.users.map (fun v =>
        if v.uuid == uuid then
          { v with name := username, email := emailOrNull email, updatedAt := now }
        else v) }, u')
  | none =>
    let u : UserRow :=
      { id := st.nextId, uuid := uuid, name := username,
        email := emailOrNull email, createdAt := now, updatedAt := now }
    ({ st with users := st.users ++ [u], nextId := st.nextId + 1 }, u)

/-- The row shape returned by `getSessionByToken`: the session columns
`s.*` joined with the owning user's `uuid`, `name AS username` and
`email`. -/
structure SessionWithUser where
  session : SessionRow
  uuid : String
  username : String
  email : Option String
  deriving DecidableEq, Repr

/-- `getSessionByToken` of `src/app/lib/db.ts`:
`SELECT s.*, u.uuid, u.name as username, u.email FROM sessions s JOIN
users u ON s.user_id = u.id WHERE s.session_token = ... AND
s.expires_at > CURRENT_TIMESTAMP LIMIT 1` with `result[0] || null`.
`now` stands for `CURRENT_TIMESTAMP`; the first joined row wins. -/
def getSessionByToken (st : Store) (now : Nat) (sessionToken : String) :
    Option SessionWithUser :=
  st.sessions.findSome? (fun s =>
    if s.sessionToken == sessionToken && decide (now < s.expiresAt) then
      (st.users.find? (fun u => u.id == s.userId)).map
        (fun u => { session := s, uuid := u.uuid, username := u.name, email := u.email })
    else none)

/-- `createSession` of `src/app/lib/db.ts`:
`INSERT INTO sessions (user_id, session_token, expires_at) VALUES ...
RETURNING *`. -/
def createSession (st : Store) (userId : Nat) (sessionToken : String)
    (expiresAt : Nat) : Store × SessionRow :=
  let s : SessionRow :=
    { userId := userId, sessionToken := sessionToken, expiresAt := expiresAt }
  ({ st with sessions := st.sessions ++ [s] }, s)

/-- `deleteSession` of `src/app/lib/db.ts`:
`DELETE FROM sessions WHERE session_token = ...`. -/
def deleteSession (st : Store) (sessionToken : String) : Store :=
  { st with sessions := st.sessions.filter (fun s => !(s.sessionToken == sessionToken)) }

/-- `cleanupExpiredSessions` of `src/app/lib/db.ts`:
`DELETE FROM sessions WHERE expires_at < CURRENT_TIMESTAMP`. -/
def cleanupExpiredSessions (st : Store) (now : Nat) : Store :=
  { st with sessions := st.sessions.filter (fun s => !(decide (s.expiresAt < now))) }

/-- Number of `users` rows keyed by a given uuid. -/
def uuidCount (st : Store) (uuid : String) : Nat :=
  (st.users.filter (fun u => u.uuid == uuid)).length

/-- Freshness window of a state token.  The codec lives in
`src/app/lib/auth.ts`, absent from the sources; the spec fixes only
that state tokens are short-lived, so the length of the window is an
arbitrary positive constant here. -/
def STATE_TOKEN_TTL : Nat := 600

/-- Payload carried by a state token: the post-login redirect path. -/
structure StatePayload where
  redirectTo : String
  deriving DecidableEq, Repr

/-- Auxiliary to the spec-modelled codec: each character is encoded as
a run of copies of the marker letter, closed by the stop letter, so the
encoded alphabet is two letters and never contains the separator dot. -/
def escape : List Char → List Char
  | [] => []
  | c :: cs => List.replicate c.toNat 'a' ++ 'g' :: escape cs

/-- Auxiliary decoder step: consume one encoded character (a run of
marker letters closed by the stop letter), returning its code and the
rest of the input. -/
def parseChar : List Char → Nat → Option (Nat × List Char)
  | [], _ => none
  | 'a' :: cs, n => parseChar cs (n + 1)
  | 'g' :: cs, n => some (n, cs)
  | _ :: _, _ => none

/-- Fuelled decoder inverse to `escape`. -/
def unescapeFuel : Nat → List Char → Option (List Char)
  | _, [] => some []
  | 0, _ :: _ => none
  | fuel + 1, c :: cs =>
    match parseChar (c :: cs) 0 with
    | none => none
    | some (n, rest) => (unescapeFuel fuel rest).map (fun tail => Char.ofNat n :: tail)

/-- Decoder inverse to `escape`; the input length bounds the number of
encoded characters, so it is enough fuel. -/
def unescape (cs : List Char) : Option (List Char) :=
  unescapeFuel cs.length cs

/-- Auxiliary to the spec-modelled codec: the data part of a state
token, embedding the issuance timestamp (as a run of marker letters)
followed by the escaped redirect path. -/
def encodePayload (issuedAt : Nat) (path : String) : List Char :=
  List.replicate issuedAt 'a' ++ 'g' :: escape path.data

/-- Modelled from the spec: the keyed signature over the data part of a
state token (`src/app/lib/auth.ts` is absent from the sources).  The
spec requires only that tampering with the signed data is detectable,
which this model realises by making the tag an injective function of
secret and data whose alphabet never contains the separator dot. -/
def signData (secret : String) (data : List Char) : List Char :=
  escape (secret.data ++ '|' :: data)

/-- Modelled from the spec: `generateStateToken` of
`src/app/lib/auth.ts` (absent from the sources) embeds the redirect
path plus an issuance timestamp into a signed, encoded string: the
encoded payload, a separator dot, and the keyed signature. -/
def generateStateToken (secret : String) (now : Nat) (redirectTo : String) : String :=
  let data := encodePayload now redirectTo
  String.mk (data ++ '.' :: signData secret data)

/-- Decode the data part of a state token back into the issuance
timestamp and the redirect path. -/
def decodePayload (data : List Char) : Option (Nat × String) :=
  match parseChar data 0 with
  | none => none
  | some (ts, rest) => (unescape rest).map (fun path => (ts, String.mk path))

/-- Modelled from the spec: `verifyStateToken` of
`src/app/lib/auth.ts` (absent from the sources) splits the token at
the separator, recomputes and compares the signature, decodes the
payload and checks freshness; every failure yields `none`, never an
exception. -/
def verifyStateToken (secret : String) (now : Nat) (token : String) : Option StatePayload :=
  let cs := token.data
  let data := cs.takeWhile (fun c => !(c == '.'))
  match cs.dropWhile (fun c => !(c == '.')) with
  | [] => none
  | _ :: sig =>
    if signData secret data = sig then
      match decodePayload data with
      | none => none
      | some (issuedAt, path) =>
        if now < issuedAt + STATE_TOKEN_TTL then some { redirectTo := path }
        else none
    else none

/-- Identity returned by the Google code exchange
(`getGoogleUserInfo`): provider id, display name, optional email. -/
structure GoogleUser where
  id : String
  name : String
  email : Option String
  deriving DecidableEq, Repr

/-- Public user fields returned by the status action. -/
structure PubUser where
  uuid : String
  username : String
  email : Option String
  deriving DecidableEq, Repr

/-- JSON body of a response, restricted to the shapes the auth handler
produces.  The constant trial and plan fields of the authenticated
status body (always unlimited in this revision) are elided. -/
inductive Body where
  | empty
  | err (msg : String)
  | statusB (isAuthenticated : Bool) (user : Option PubUser) (hint : Option String)
  | signOutOk
  deriving DecidableEq, Repr

/-- Effect of a response on the session cookie. -/
inductive CookieEffect where
  | keep
  | set (token : String)
  | clear
  deriving DecidableEq, Repr

/-- An HTTP response: status code, optional redirect target, cookie
effect and body. -/
structure Resp where
  status : Nat
  location : Option String := none
  cookie : CookieEffect := .keep
  body : Body := .empty
  deriving DecidableEq, Repr

/-- Query parameters and cookie of one request to the auth endpoint.
Query values are optional strings; `sessionCookie` is the one
HTTP-only session cookie of the flow. -/
structure Req where
  method : String
  action : Option String
  next : Option String
  code : Option String
  state : Option String
  oauthError : Option String
  sessionCookie : Option String
  deriving DecidableEq, Repr

/-- Environment and external-collaborator outcomes for one request:
whether DATABASE_URL is configured, the state-token secret, the clock,
the outcome of the Google code exchange, the fresh random session
token, an injected failure of the session-creation store call, an
injected internal failure of the status lookup, and whether clearing
the session cookie is impossible. -/
structure World where
  req : Req
  dbConfigured : Bool
  stateSecret : String
  now : Nat
  googleResult : Except String GoogleUser
  freshSessionToken : String
  createSessionFailure : Option String
  statusFailure : Option String
  clearCookieFails : Bool
  deriving Repr

/-- JavaScript truthiness of a possibly-absent string query value:
`undefined` and the empty string are falsy. -/
def truthy : Option String → Bool
  | none => false
  | some s => !(s == "")

/-- Truthiness of `!googleUser.email`: a missing or empty email. -/
def falsyEmail : Option String → Bool
  | none => true
  | some s => s == ""

/-- Hex digit (uppercase) of a number below 16, as produced by
`encodeURIComponent`. -/
def hexDigit (n : Nat) : Char :=
  if n < 10 then Char.ofNat (48 + n) else Char.ofNat (55 + n)

/-- UTF-8 bytes of one character. -/
def utf8Bytes (c : Char) : List Nat :=
  let n := c.toNat
  if n < 128 then [n]
  else if n < 2048 then [192 + n / 64, 128 + n % 64]
  else if n < 65536 then [224 + n / 4096, 128 + n / 64 % 64, 128 + n % 64]
  else [240 + n / 262144, 128 + n / 4096 % 64, 128 + n / 64 % 64, 128 + n % 64]

/-- Characters `encodeURIComponent` leaves unescaped. -/
def uriUnreserved (c : Char) : Bool :=
  c.isAlphanum || c == '-' || c == '_' || c == '.' || c == '!' || c == '~' ||
    c == Char.ofNat 42 || c == Char.ofNat 39 || c == '(' || c == ')'

/-- Percent-encode a byte list. -/
def percentBytes : List Nat → List Char
  | [] => []
  | b :: bs => '%' :: hexDigit (b / 16) :: hexDigit (b % 16) :: percentBytes bs

/-- Character-list worker for `uriEncode`. -/
def uriEncodeList : List Char → List Char
  | [] => []
  | c :: cs =>
    (if uriUnreserved c then [c] else percentBytes (utf8Bytes c)) ++ uriEncodeList cs

/-- Model of JavaScript `encodeURIComponent`. -/
def uriEncode (s : String) : String :=
  String.mk (uriEncodeList s.data)

/-- Modelled from the spec: `getGoogleAuthUrl` of `src/app/lib/auth.ts`
(absent from the sources) builds the provider authorization URL with
client id, redirect URI, scopes, and the opaque state passed through. -/
def getGoogleAuthUrl (state : String) : String :=
  "https://accounts.google.com/o/oauth2/v2/auth?scope=openid%20email%20profile&state="
    ++ uriEncode state

/-- Modelled from the spec: `getSessionToken` of `src/app/lib/auth.ts`
(absent from the sources) reads the opaque session token from the one
HTTP-only session cookie, if present. -/
def getSessionToken (req : Req) : Option String :=
  req.sessionCookie

/-- Modelled from the spec: `destroySession` of `src/app/lib/auth.ts`
(absent from the sources) destroys the server-side session row via
`deleteSession`; absence of a matching row is not an error, and store
errors do not escape (the spec reserves sign-out failure for the
clear-cookie step alone). -/
def destroySession (st : Store) (tok : String) : Store :=
  deleteSession st tok

/-- Modelled from the spec: `getAuthenticatedUser` of
`src/app/lib/auth.ts` (absent from the sources) reads the session
cookie and looks the token up via `getSessionByToken`, yielding the
joined row only while the session is valid. -/
def getAuthenticatedUser (st : Store) (now : Nat) (req : Req) : Option SessionWithUser :=
  match getSessionToken req with
  | none => none
  | some tok => getSessionByToken st now tok

/-- Fixed session time-to-live.  Modelled from the spec: the spec fixes
only that the TTL is a fixed duration, so its length is an arbitrary
positive constant here. -/
def SESSION_TTL : Nat := 604800

/-- Modelled from the spec: `createUserSession` of
`src/app/lib/auth.ts` (absent from the sources) upserts the user by
external id and creates a session carrying a fresh random token with
the fixed TTL. -/
def createUserSession (st : Store) (now : Nat) (googleId name : String)
    (email : Option String) (freshToken : String) : Store × String :=
  let r₁ := createUser st googleId name email now
  let r₂ := createSession r₁.1 r₁.2.id freshToken (now + SESSION_TTL)
  (r₂.1, freshToken)

/-- `handleSignIn` of `src/api/auth.ts`: default the post-login path
to the root, generate a state token, build the provider URL, redirect. -/
def handleSignIn (w : World) (st : Store) : Store × Resp :=
  let next := match w.req.next with
    | none => "/"
    | some s => if s = "" then "/" else s
  let state := generateStateToken w.stateSecret w.now next
  (st, { status := 302, location := some (getGoogleAuthUrl state) })

/-- `handleSignOut` of `src/api/auth.ts`: read the session token from
the cookie if present, destroy the session server-side, clear the
cookie, return success; if the clear-cookie step cannot run, the catch
block (whose own clearing attempt fails the same way) yields 500. -/
def handleSignOut (w : World) (st : Store) : Store × Resp :=
  let st' := match getSessionToken w.req with
    | some tok => destroySession st tok
    | none => st
  if w.clearCookieFails then
    (st', { status := 500, body := .err "Internal server error" })
  else
    (st', { status := 200, cookie := .clear, body := .signOutOk })

/-- `handleStatus` of `src/api/auth.ts`: report unauthenticated with a
hint when DATABASE_URL is absent; convert any internal error into a
200 unauthenticated body with a hint; otherwise look up the cookie's
session and return the public user fields. -/
def handleStatus (w : World) (st : Store) : Store × Resp :=
  if !w.dbConfigured then
    (st, { status := 200, body := .statusB false none (some "Database not configured") })
  else
    match w.statusFailure with
    | some e => (st, { status := 200, body := .statusB false none (some e) })
    | none =>
      match getAuthenticatedUser st w.now w.req with
      | none => (st, { status := 200, body := .statusB false none none })
      | some row =>
        (st, { status := 200,
               body := .statusB true
                 (some { uuid := row.uuid, username := row.username, email := row.email })
                 none })

/-- `handleCallback` of `src/api/auth.ts`: a truthy provider `error`
redirects to the root error page; a missing code likewise; a failing
code exchange or session-creation store call is caught and redirected
with the encoded message; a missing or empty email redirects with
`no_email`; otherwise the user is upserted, a session created, the
cookie set, and the state token decoded for the redirect target
(default `/upload`). -/
def handleCallback (w : World) (st : Store) : Store × Resp :=
  if truthy w.req.oauthError then
    (st, { status := 302,
           location := some ("/?error=" ++ uriEncode (w.req.oauthError.getD "")) })
  else if !truthy w.req.code then
    (st, { status := 302, location := some "/?error=missing_code" })
  else
    match w.googleResult with
    | .error e =>
      (st, { status := 302, location := some ("/?error=" ++ uriEncode e) })
    | .ok gu =>
      if falsyEmail gu.email then
        (st, { status := 302, location := some "/?error=no_email" })
      else
        match w.createSessionFailure with
        | some e =>
          (st, { status := 302, location := some ("/?error=" ++ uriEncode e) })
        | none =>
          let r := createUserSession st w.now gu.id gu.name gu.email w.freshSessionToken
          let stateData := w.req.state.bind (fun s => verifyStateToken w.stateSecret w.now s)
          let redirectTo := match stateData with
            | some p => if p.redirectTo = "" then "/upload" else p.redirectTo
            | none => "/upload"
          (r.1, { status := 302, location := some redirectTo, cookie := .set r.2 })

/-- The action discriminator: `(req.query.action as string) || 'status'`. -/
def effectiveAction (req : Req) : String :=
  match req.action with
  | none => "status"
  | some a => if a = "" then "status" else a

/-- The default-exported `handler` of `src/api/auth.ts`: answer CORS
preflight, then dispatch on the action discriminator with a per-action
method check; unknown actions get 400, wrong methods 405. -/
def handler (w : World) (st : Store) : Store × Resp :=
  if w.req.method = "OPTIONS" then
    (st, { status := 200 })
  else
    let action := effectiveAction w.req
    if action = "signin" then
      if w.req.method ≠ "GET" then (st, { status := 405, body := .err "Method not allowed" })
      else handleSignIn w st
    else if action = "signout" then
      if w.req.method ≠ "POST" then (st, { status := 405, body := .err "Method not allowed" })
      else handleSignOut w st
    else if action = "status" then
      if w.req.method ≠ "GET" then (st, { status := 405, body := .err "Method not allowed" })
      else handleStatus w st
    else if action = "callback" then
      if w.req.method ≠ "GET" then (st, { status := 405, body := .err "Method not allowed" })
      else handleCallback w st
    else
      (st, { status := 400, body := .err ("Unknown action: " ++ action) })

/-- The redirect reason produced by each failure path of the callback. -/
def callbackFailureReason (w : World) : String :=
  if truthy w.req.oauthError then w.req.oauthError.getD ""
  else if !truthy w.req.code then "missing_code"
  else match w.googleResult with
    | .error e => e
    | .ok gu =>
      if falsyEmail gu.email then "no_email" else w.createSessionFailure.getD ""

/-- Whether a callback request is on a failure path. -/
def callbackFailure (w : World) : Bool :=
  truthy w.req.oauthError || !truthy w.req.code ||
    (match w.googleResult with
      | .error _ => true
      | .ok gu => falsyEmail gu.email || w.createSessionFailure.isSome)

/-- An empty store, used by concrete instantiations. -/
def emptyStore : Store :=
  { users := [], sessions := [], nextId := 0 }

/-- A concrete well-formed callback request, used by concrete
instantiations. -/
def baseReq : Req :=
  { method := "GET", action := some "callback", next := none, code := some "code1",
    state := none, oauthError := none, sessionCookie := none }

/-- A concrete world in which the callback succeeds, used by concrete
instantiations. -/
def baseWorld : World :=
  { req := baseReq, dbConfigured := true, stateSecret := "", now := 5,
    googleResult := Except.ok { id := "g1", name := "Ada", email := some "a@x.io" },
    freshSessionToken := "t1", createSessionFailure := none, statusFailure := none,
    clearCookieFails := false }

/-- A lookup for a token matching no session row yields `null`. -/
theorem getSessionByToken_not_found (st : Store) (now : Nat) (tok : String)
    (h : ∀ s ∈ st.sessions, s.sessionToken ≠ tok) :
    getSessionByToken st now tok = none := by
  unfold getSessionByToken
  rw [List.findSome?_eq_none_iff]
  intro s hs
  simp [h s hs]

/-- C1: a session freshly created by `createSession` with expiry
`expAt`, for an existing user and a token matching no prior session, is
returned by `getSessionByToken` joined with its owning user exactly
when the current time is strictly before `expAt` (and `null` at or
after expiry); and any token matching no session row yields `null`, so
an expired session is indistinguishable from a nonexistent one. -/
theorem createSession_getSessionByToken_c1
    (st : Store) (u : UserRow) (tok : String) (uid expAt now : Nat)
    (hu : st.users.find? (fun v => v.id == uid) = some u)
    (hfresh : ∀ s ∈ st.sessions, s.sessionToken ≠ tok) :
    (getSessionByToken (createSession st uid tok expAt).1 now tok =
      if now < expAt then
        some { session := { userId := uid, sessionToken := tok, expiresAt := expAt },
               uuid := u.uuid, username := u.name, email := u.email }
      else none)
    ∧ (∀ (st₂ : Store) (tok₂ : String),
        (∀ s ∈ st₂.sessions, s.sessionToken ≠ tok₂) →
          getSessionByToken st₂ now tok₂ = none) := by
  constructor
  · unfold createSession getSessionByToken
    simp only [List.findSome?_append]
    have hold : st.sessions.findSome? (fun s =>
        if s.sessionToken == tok && decide (now < s.expiresAt) then
          (st.users.find? (fun u => u.id == s.userId)).map
            (fun u => ({ session := s, uuid := u.uuid, username := u.name,
                         email := u.email } : SessionWithUser))
        else none) = none := by
      rw [List.findSome?_eq_none_iff]
      intro s hs
      simp [hfresh s hs]
    rw [hold]
    by_cases hlt : now < expAt
    · simp [hlt, hu]
    · simp [hlt]
  · intro st₂ tok₂ h₂
    exact getSessionByToken_not_found st₂ now tok₂ h₂

/-- Witness for C1 at a concrete store, user and token. -/
theorem createSession_getSessionByToken_c1_witness :
    (getSessionByToken
        (createSession
          { users := [{ id := 1, uuid := "g-7", name := "Ada", email := some "a@x.io",
                        createdAt := 0, updatedAt := 0 }],
            sessions := [], nextId := 2 } 1 "tokA" 100).1 40 "tokA" =
      some { session := { userId := 1, sessionToken := "tokA", expiresAt := 100 },
             uuid := "g-7", username := "Ada", email := some "a@x.io" }) := by
  have h := createSession_getSessionByToken_c1
    { users := [{ id := 1, uuid := "g-7", name := "Ada", email := some "a@x.io",
                  createdAt := 0, updatedAt := 0 }],
      sessions := [], nextId := 2 }
    { id := 1, uuid := "g-7", name := "Ada", email := some "a@x.io",
      createdAt := 0, updatedAt := 0 }
    "tokA" 1 100 40 (by decide) (by intro s hs; simp at hs)
  simpa using h.1

/-- The conflict-branch UPDATE of `createUser` rewrites exactly the
rows keyed by `uuid`: filtering for the key afterwards is the same as
filtering first and updating each hit. -/
theorem filter_map_update (l : List UserRow) (uuid n : String) (e : Option String)
    (t : Nat) :
    ((l.map (fun v =>
        if v.uuid == uuid then
          { v with name := n, email := emailOrNull e, updatedAt := t }
        else v)).filter (fun u => u.uuid == uuid)) =
      (l.filter (fun u => u.uuid == uuid)).map
        (fun v => { v with name := n, email := emailOrNull e, updatedAt := t }) := by
  induction l with
  | nil => rfl
  | cons v l ih =>
    simp only [List.map_cons, List.filter_cons, beq_iff_eq] at ih ⊢
    by_cases h : v.uuid = uuid
    · simp [h, ih]
    · simp [h, ih]

/-- One `createUser` call leaves the key `uuid` present exactly once
when it was absent, preserves its multiplicity otherwise, and leaves
every row keyed by `uuid` carrying the latest name and normalised
email. -/
theorem createUser_upsert_spec (st : Store) (uuid n : String) (e : Option String)
    (t : Nat) :
    uuidCount (createUser st uuid n e t).1 uuid = max 1 (uuidCount st uuid)
    ∧ ∀ u ∈ (createUser st uuid n e t).1.users, u.uuid = uuid →
        u.name = n ∧ u.email = emailOrNull e := by
  unfold createUser uuidCount
  cases hf : st.users.find? (fun u => u.uuid == uuid) with
  | some u =>
    have hmem : u ∈ st.users := List.mem_of_find?_eq_some hf
    have hkey : u.uuid = uuid := by
      have := List.find?_some hf
      simpa using this
    have hpos : 1 ≤ (st.users.filter (fun v => v.uuid == uuid)).length := by
      have : u ∈ st.users.filter (fun v => v.uuid == uuid) :=
        List.mem_filter.mpr ⟨hmem, by simpa using hkey⟩
      exact List.length_pos.mpr (fun hnil => by simp [hnil] at this)
    constructor
    · simp only
      rw [filter_map_update]
      simp only [List.length_map]
      omega
    · intro v hv hvk
      simp only [List.mem_map] at hv
      obtain ⟨w, hw, hwv⟩ := hv
      by_cases hwk : w.uuid = uuid
      · rw [if_pos (by simpa using hwk)] at hwv
        subst hwv
        exact ⟨rfl, rfl⟩
      · rw [if_neg (by simpa using hwk)] at hwv
        subst hwv
        exact absurd hvk hwk
  | none =>
    have habs : ∀ v ∈ st.users, v.uuid ≠ uuid := by
      intro v hv
      have := List.find?_eq_none.mp hf v hv
      simpa using this
    have hemp : st.users.filter (fun v => v.uuid == uuid) = [] := by
      rw [List.filter_eq_nil_iff]
      intro v hv
      simpa using habs v hv
    constructor
    · simp only
      rw [List.filter_append, hemp]
      simp
    · intro v hv hvk
      simp only [List.mem_append, List.mem_singleton] at hv
      cases hv with
      | inl h => exact absurd hvk (habs v h)
      | inr h => subst h; exact ⟨rfl, rfl⟩

/-- C2: calling the upsert `createUser` twice with the same external
id, starting from a store where that id keys at most one row, leaves
exactly one user row keyed by it, and that row carries the name and
email of the second call (the second call updates instead of
duplicating). -/
theorem createUser_twice_c2
    (st : Store) (uuid n₁ n₂ : String) (e₁ e₂ : Option String) (t₁ t₂ : Nat)
    (hinv : uuidCount st uuid ≤ 1) (he : e₂ ≠ some "") :
    uuidCount (createUser (createUser st uuid n₁ e₁ t₁).1 uuid n₂ e₂ t₂).1 uuid = 1
    ∧ ∀ u ∈ (createUser (createUser st uuid n₁ e₁ t₁).1 uuid n₂ e₂ t₂).1.users,
        u.uuid = uuid → u.name = n₂ ∧ u.email = e₂ := by
  have h₁ := createUser_upsert_spec st uuid n₁ e₁ t₁
  have h₂ := createUser_upsert_spec (createUser st uuid n₁ e₁ t₁).1 uuid n₂ e₂ t₂
  have hemail : emailOrNull e₂ = e₂ := by
    cases e₂ with
    | none => rfl
    | some s =>
      have hs : s ≠ "" := fun h => he (by rw [h])
      simp [emailOrNull, hs]
  constructor
  · rw [h₂.1, h₁.1]
    omega
  · intro u hu huu
    have hp := h₂.2 u hu huu
    rw [hemail] at hp
    exact hp

/-- Witness for C2 at a concrete store and pair of upsert calls. -/
theorem createUser_twice_c2_witness :
    uuidCount (createUser
        (createUser { users := [], sessions := [], nextId := 0 }
          "g-7" "Ada" (some "a@x.io") 1).1
        "g-7" "Ada L." (some "ada@x.io") 2).1 "g-7" = 1 :=
  (createUser_twice_c2 { users := [], sessions := [], nextId := 0 }
    "g-7" "Ada" "Ada L." (some "a@x.io") (some "ada@x.io") 1 2
    (by decide) (by decide)).1

/-- Consuming one encoded character from the front of well-formed
input returns the run length and the tail. -/
theorem parseChar_replicate (n : Nat) :
    ∀ (k : Nat) (r : List Char),
      parseChar (List.replicate n 'a' ++ 'g' :: r) k = some (k + n, r) := by
  induction n with
  | zero => intro k r; simp [parseChar]
  | succ n ih =>
    intro k r
    rw [List.replicate_succ]
    show parseChar (List.replicate n 'a' ++ 'g' :: r) (k + 1) = some (k + (n + 1), r)
    rw [ih (k + 1) r]
    congr 2
    omega

/-- The escaped alphabet is the marker and stop letters only. -/
theorem escape_chars (s : List Char) : ∀ x ∈ escape s, x = 'a' ∨ x = 'g' := by
  induction s with
  | nil => intro x hx; simp [escape] at hx
  | cons c cs ih =>
    intro x hx
    simp only [escape, List.mem_append, List.mem_cons] at hx
    rcases hx with h | h | h
    · exact Or.inl (List.eq_of_mem_replicate h)
    · exact Or.inr h
    · exact ih x h

/-- Escaping never shortens the input. -/
theorem length_le_escape (s : List Char) : s.length ≤ (escape s).length := by
  induction s with
  | nil => simp [escape]
  | cons c cs ih => simp [escape]; omega

/-- With enough fuel the decoder inverts `escape`. -/
theorem unescapeFuel_escape (s : List Char) :
    ∀ fuel : Nat, s.length ≤ fuel → unescapeFuel fuel (escape s) = some s := by
  induction s with
  | nil => intro fuel _; cases fuel <;> rfl
  | cons c cs ih =>
    intro fuel hfuel
    cases fuel with
    | zero => simp at hfuel
    | succ f =>
      have hne : escape (c :: cs) = List.replicate c.toNat 'a' ++ 'g' :: escape cs := rfl
      have hcons : ∃ x xs, escape (c :: cs) = x :: xs := by
        cases hn : c.toNat with
        | zero => exact ⟨'g', escape cs, by simp [hne, hn]⟩
        | succ m => exact ⟨'a', List.replicate m 'a' ++ 'g' :: escape cs, by
            simp [hne, hn, List.replicate_succ]⟩
      obtain ⟨x, xs, hx⟩ := hcons
      rw [hx]
      show (match parseChar (x :: xs) 0 with
        | none => none
        | some (n, rest) => (unescapeFuel f rest).map (fun tail => Char.ofNat n :: tail)) = some (c :: cs)
      rw [← hx, hne, parseChar_replicate]
      simp only [Nat.zero_add]
      rw [ih f (by simpa using hfuel)]
      simp [Char.ofNat_toNat]

/-- The decoder inverts `escape`. -/
theorem unescape_escape (s : List Char) : unescape (escape s) = some s :=
  unescapeFuel_escape s (escape s).length (length_le_escape s)

/-- `escape` is injective. -/
theorem escape_injective (s₁ s₂ : List Char) (h : escape s₁ = escape s₂) : s₁ = s₂ := by
  have h₁ := unescape_escape s₁
  have h₂ := unescape_escape s₂
  rw [h] at h₁
  rw [h₁] at h₂
  exact Option.some.inj h₂

/-- The signature determines the signed data. -/
theorem signData_injective (secret : String) (d₁ d₂ : List Char)
    (h : signData secret d₁ = signData secret d₂) : d₁ = d₂ := by
  have := escape_injective _ _ h
  exact List.cons.inj (List.append_cancel_left this) |>.2

/-- The signature alphabet never contains the separator dot. -/
theorem signData_no_dot (secret : String) (d : List Char) :
    ∀ x ∈ signData secret d, ¬x = '.' := by
  intro x hx
  rcases escape_chars _ x hx with h | h <;> simp [h]

/-- The data part of a token never contains the separator dot. -/
theorem encodePayload_no_dot (issuedAt : Nat) (path : String) :
    ∀ x ∈ encodePayload issuedAt path, ¬x = '.' := by
  intro x hx
  simp only [encodePayload, List.mem_append, List.mem_cons] at hx
  rcases hx with h | h | h
  · rw [List.eq_of_mem_replicate h]; simp
  · simp [h]
  · rcases escape_chars _ x h with h | h <;> simp [h]

/-- Splitting a dot-free prefix followed by a dot at the first dot. -/
theorem split_at_dot (d r : List Char) (hd : ∀ x ∈ d, ¬x = '.') :
    (d ++ '.' :: r).takeWhile (fun c => !(c == '.')) = d
    ∧ (d ++ '.' :: r).dropWhile (fun c => !(c == '.')) = '.' :: r := by
  induction d with
  | nil => constructor <;> simp [List.takeWhile, List.dropWhile]
  | cons c cs ih =>
    have hc : ¬c = '.' := hd c (by simp)
    have ihh := ih (fun x hx => hd x (by simp [hx]))
    constructor
    · simp only [List.cons_append, List.takeWhile_cons]
      simp [hc, ihh.1]
    · simp only [List.cons_append, List.dropWhile_cons]
      simp [hc, ihh.2]

/-- Verification fails whenever the transmitted tag differs from the
recomputed signature of the (dot-free) data part. -/
theorem verify_neq_sig (secret : String) (now : Nat) (d sig : List Char)
    (hd : ∀ x ∈ d, ¬x = '.') (hne : ¬signData secret d = sig) :
    verifyStateToken secret now (String.mk (d ++ '.' :: sig)) = none := by
  have hsplit := split_at_dot d sig hd
  simp only [verifyStateToken]
  simp [hsplit.1, hsplit.2, hne]

/-- Verification fails on input with no separator dot at all. -/
theorem verify_no_dot (secret : String) (now : Nat) (l : List Char)
    (h : ∀ x ∈ l, ¬x = '.') :
    verifyStateToken secret now (String.mk l) = none := by
  have hdrop : l.dropWhile (fun c => !(c == '.')) = [] :=
    List.dropWhile_eq_nil_iff.mpr (fun x hx => by simp [h x hx])
  simp only [verifyStateToken]
  simp [hdrop]

/-- A token generated now verifies now, returning its redirect path. -/
theorem verifyStateToken_generateStateToken (secret path : String) (now : Nat) :
    verifyStateToken secret now (generateStateToken secret now path) =
      some { redirectTo := path } := by
  have hsplit := split_at_dot (encodePayload now path)
    (signData secret (encodePayload now path)) (encodePayload_no_dot now path)
  simp only [generateStateToken, verifyStateToken]
  simp only [hsplit.1, hsplit.2]
  simp only [if_true]
  simp only [decodePayload, encodePayload]
  rw [parseChar_replicate]
  simp only [Nat.zero_add]
  rw [unescape_escape]
  simp [STATE_TOKEN_TTL]

/-- Core tamper-detection fact: flipping any single character of a
well-formed signed token (dot-free data part, matching dot-free tag)
makes verification fail. -/
theorem verify_set_ne_general (secret : String) (now i : Nat) (c : Char)
    (d g : List Char)
    (hd : ∀ x ∈ d, ¬x = '.') (hgd : ∀ x ∈ g, ¬x = '.')
    (hsig : signData secret d = g)
    (hi : i < (d ++ '.' :: g).length)
    (hc : ¬c = (d ++ '.' :: g).get ⟨i, hi⟩) :
    verifyStateToken secret now (String.mk ((d ++ '.' :: g).set i c)) = none := by
  simp only [List.get_eq_getElem] at hc
  rcases Nat.lt_trichotomy i d.length with hlt | heq | hgt
  · -- the flip lands in the data part
    have hset : (d ++ '.' :: g).set i c = d.set i c ++ '.' :: g := by
      rw [List.set_append, if_pos hlt]
    have hget : (d ++ '.' :: g)[i] = d[i] := List.getElem_append_left hlt
    by_cases hdot : c = '.'
    · subst hdot
      rw [hset, List.set_eq_take_append_cons_drop, if_pos hlt,
        List.append_assoc, List.cons_append]
      apply verify_neq_sig
      · intro x hx
        exact hd x (List.take_subset i d hx)
      · intro h
        have hmem : '.' ∈ d.drop (i + 1) ++ '.' :: g := by simp
        rw [← h] at hmem
        exact signData_no_dot secret (d.take i) '.' hmem rfl
    · rw [hset]
      apply verify_neq_sig secret now (d.set i c) g
      · intro x hx
        rcases List.mem_or_eq_of_mem_set hx with h | h
        · exact hd x h
        · rw [h]; exact hdot
      · intro h
        have hinj := signData_injective secret (d.set i c) d (h.trans hsig.symm)
        have h2 := congrArg (fun l => l[i]?) hinj
        simp only at h2
        rw [List.getElem?_set_self hlt, List.getElem?_eq_getElem hlt] at h2
        exact hc (by rw [hget]; exact Option.some.inj h2)
  · -- the flip lands on the separator dot
    subst heq
    have hget : (d ++ '.' :: g)[d.length] = '.' := by
      rw [List.getElem_append_right (Nat.le_refl _)]
      simp
    have hcd : ¬c = '.' := fun h => hc (by rw [hget, h])
    have hset : (d ++ '.' :: g).set d.length c = d ++ c :: g := by
      rw [List.set_append, if_neg (Nat.lt_irrefl _)]
      simp
    rw [hset]
    apply verify_no_dot
    intro x hx
    rcases List.mem_append.mp hx with h | h
    · exact hd x h
    · rcases List.mem_cons.mp h with h | h
      · rw [h]; exact hcd
      · exact hgd x h
  · -- the flip lands in the signature part
    obtain ⟨k, hk⟩ : ∃ k, i = d.length + (k + 1) := ⟨i - d.length - 1, by omega⟩
    subst hk
    have hklen : k < g.length := by
      have h := hi
      simp only [List.length_append, List.length_cons] at h
      omega
    have hset : (d ++ '.' :: g).set (d.length + (k + 1)) c = d ++ '.' :: g.set k c := by
      rw [List.set_append, if_neg (by omega),
        show d.length + (k + 1) - d.length = k + 1 from by omega,
        List.set_cons_succ]
    have hget : (d ++ '.' :: g)[d.length + (k + 1)] = g[k] := by
      rw [List.getElem_append_right (by omega)]
      simp [show d.length + (k + 1) - d.length = k + 1 from by omega]
    rw [hset]
    apply verify_neq_sig secret now d (g.set k c) hd
    rw [hsig]
    intro h
    have h2 := congrArg (fun l => l[k]?) h.symm
    simp only at h2
    rw [List.getElem?_set_self hklen, List.getElem?_eq_getElem hklen] at h2
    exact hc (by rw [hget]; exact Option.some.inj h2)

/-- C3: verifying a freshly generated state token returns exactly the
embedded redirect path, and flipping any single character of the
generated token makes verification return `none` (tampering is
detected), never an exception. -/
theorem stateToken_roundtrip_and_tamper_c3 (secret path : String) (now i : Nat)
    (c : Char)
    (hi : i < (generateStateToken secret now path).data.length)
    (hc : ¬c = (generateStateToken secret now path).data.get ⟨i, hi⟩) :
    verifyStateToken secret now (generateStateToken secret now path) =
      some { redirectTo := path }
    ∧ verifyStateToken secret now
        (String.mk ((generateStateToken secret now path).data.set i c)) = none := by
  refine ⟨verifyStateToken_generateStateToken secret path now, ?_⟩
  have htd : (generateStateToken secret now path).data =
      encodePayload now path ++ '.' :: signData secret (encodePayload now path) := rfl
  rw [htd] at hi ⊢
  apply verify_set_ne_general secret now i c _ _
    (encodePayload_no_dot now path) (signData_no_dot secret _) rfl hi
  intro h
  apply hc
  rw [h]
  congr 1

set_option maxRecDepth 4000 in
/-- Witness for C3 at a concrete secret, path, time and flip. -/
theorem stateToken_roundtrip_and_tamper_c3_witness :
    verifyStateToken "" 3 (generateStateToken "" 3 "") = some { redirectTo := "" }
    ∧ verifyStateToken "" 3
        (String.mk ((generateStateToken "" 3 "").data.set 0 'b')) = none :=
  stateToken_roundtrip_and_tamper_c3 "" "" 3 0 'b' (by decide) (by decide)

/-- C4 (amended): a callback request whose provider `error` query value
is truthy (present and nonempty) never reaches the code exchange: the
store is unchanged (no user upserted, no session created), no cookie is
set, and the response is a 302 redirect to the root error page carrying
the encoded reason. -/
theorem handleCallback_provider_error_c4 (w : World) (st : Store)
    (h : truthy w.req.oauthError = true) :
    (handleCallback w st).1 = st
    ∧ (handleCallback w st).2.status = 302
    ∧ (handleCallback w st).2.location =
        some ("/?error=" ++ uriEncode (w.req.oauthError.getD ""))
    ∧ (handleCallback w st).2.cookie = CookieEffect.keep := by
  simp [handleCallback, h]

/-- Witness for C4 (amended) at a concrete denied callback. -/
theorem handleCallback_provider_error_c4_witness :
    (handleCallback
        { baseWorld with req := { baseReq with oauthError := some "access_denied" } }
        emptyStore).1 = emptyStore
    ∧ (handleCallback
        { baseWorld with req := { baseReq with oauthError := some "access_denied" } }
        emptyStore).2.status = 302 := by
  have h := handleCallback_provider_error_c4
    { baseWorld with req := { baseReq with oauthError := some "access_denied" } }
    emptyStore (by decide)
  exact ⟨h.1, h.2.1⟩

/-- C4 as frozen is violated by an empty-valued provider error
parameter: the query string contains `error=` (empty string), yet the
handler proceeds through the code exchange and redirects to the
success target, mutating the store. -/
theorem handleCallback_c4_counterexample :
    (handleCallback
        { baseWorld with req := { baseReq with oauthError := some "" } }
        emptyStore).2.location = some "/upload"
    ∧ ¬(handleCallback
        { baseWorld with req := { baseReq with oauthError := some "" } }
        emptyStore).1 = emptyStore := by
  constructor
  · rfl
  · decide

/-- C5: a callback past the error and code checks whose exchanged
identity has a missing or empty email redirects to `/?error=no_email`
and leaves the store untouched: no user row and no session row is
created or updated. -/
theorem handleCallback_no_email_c5 (w : World) (st : Store) (gu : GoogleUser)
    (h1 : truthy w.req.oauthError = false)
    (h2 : truthy w.req.code = true)
    (h3 : w.googleResult = Except.ok gu)
    (h4 : falsyEmail gu.email = true) :
    (handleCallback w st).1 = st
    ∧ (handleCallback w st).2 =
        { status := 302, location := some "/?error=no_email" } := by
  simp [handleCallback, h1, h2, h3, h4]

/-- Witness for C5 at a concrete empty-email identity. -/
theorem handleCallback_no_email_c5_witness :
    (handleCallback
        { baseWorld with
          googleResult := Except.ok { id := "g1", name := "Ada", email := some "" } }
        emptyStore).1 = emptyStore
    ∧ (handleCallback
        { baseWorld with
          googleResult := Except.ok { id := "g1", name := "Ada", email := some "" } }
        emptyStore).2 =
        { status := 302, location := some "/?error=no_email" } :=
  handleCallback_no_email_c5
    { baseWorld with
      googleResult := Except.ok { id := "g1", name := "Ada", email := some "" } }
    emptyStore { id := "g1", name := "Ada", email := some "" }
    (by decide) (by decide) rfl (by decide)

/-- C6: the callback action never answers 500: every branch, success
or failure, is a 302 redirect, and on each failure path the target is
the root error page carrying the encoded failure reason. -/
theorem handleCallback_no_500_c6 (w : World) (st : Store) :
    (handleCallback w st).2.status = 302
    ∧ (callbackFailure w = true →
        (handleCallback w st).2.location =
          some ("/?error=" ++ uriEncode (callbackFailureReason w))) := by
  cases he : truthy w.req.oauthError with
  | true =>
    simp [handleCallback, callbackFailure, callbackFailureReason, he]
  | false =>
    cases hc : truthy w.req.code with
    | false =>
      refine ⟨by simp [handleCallback, he, hc], fun _ => ?_⟩
      simp [handleCallback, callbackFailureReason, he, hc]
      rfl
    | true =>
      cases hg : w.googleResult with
      | error e =>
        simp [handleCallback, callbackFailure, callbackFailureReason, he, hc, hg]
      | ok gu =>
        cases hm : falsyEmail gu.email with
        | true =>
          refine ⟨by simp [handleCallback, he, hc, hg, hm], fun _ => ?_⟩
          simp [handleCallback, callbackFailureReason, he, hc, hg, hm]
          rfl
        | false =>
          cases hf : w.createSessionFailure with
          | some e =>
            simp [handleCallback, callbackFailure, callbackFailureReason,
              he, hc, hg, hm, hf]
          | none =>
            refine ⟨by simp [handleCallback, he, hc, hg, hm, hf], fun hff => ?_⟩
            exfalso
            simp [callbackFailure, he, hc, hg, hm, hf] at hff

/-- Witness for C6 at a concrete rejected code exchange. -/
theorem handleCallback_no_500_c6_witness :
    (handleCallback { baseWorld with googleResult := Except.error "bad_code" }
        emptyStore).2.status = 302
    ∧ (handleCallback { baseWorld with googleResult := Except.error "bad_code" }
        emptyStore).2.location =
        some ("/?error=" ++ uriEncode (callbackFailureReason
          { baseWorld with googleResult := Except.error "bad_code" })) := by
  have h := handleCallback_no_500_c6
    { baseWorld with googleResult := Except.error "bad_code" } emptyStore
  exact ⟨h.1, h.2 (by decide)⟩

/-- Every branch of the status action answers 200. -/
theorem handleStatus_status_200 (w : World) (st : Store) :
    (handleStatus w st).2.status = 200 := by
  cases hdb : w.dbConfigured with
  | false => simp [handleStatus, hdb]
  | true =>
    cases hf : w.statusFailure with
    | some e => simp [handleStatus, hdb, hf]
    | none =>
      cases ha : getAuthenticatedUser st w.now w.req with
      | none => simp [handleStatus, hdb, hf, ha]
      | some row => simp [handleStatus, hdb, hf, ha]

/-- C7: the status action always answers 200 (never 401 or 500); with
no session cookie and no failure it reports unauthenticated with a
null user; any internal error yields 200, unauthenticated, plus the
error hint; an unconfigured DATABASE_URL likewise degrades to
unauthenticated with a hint instead of failing hard. -/
theorem handleStatus_always_200_c7 (w : World) (st : Store) :
    (handleStatus w st).2.status = 200
    ∧ (w.req.sessionCookie = none → w.dbConfigured = true → w.statusFailure = none →
        (handleStatus w st).2.body = Body.statusB false none none)
    ∧ (∀ e, w.statusFailure = some e → w.dbConfigured = true →
        (handleStatus w st).2.body = Body.statusB false none (some e))
    ∧ (w.dbConfigured = false →
        (handleStatus w st).2.body =
          Body.statusB false none (some "Database not configured")) := by
  refine ⟨handleStatus_status_200 w st, ?_, ?_, ?_⟩
  · intro hck hdb hf
    simp [handleStatus, hdb, hf, getAuthenticatedUser, getSessionToken, hck]
  · intro e hf hdb
    simp [handleStatus, hdb, hf]
  · intro hdb
    simp [handleStatus, hdb]

/-- Witness for C7 at a concrete cookie-less request. -/
theorem handleStatus_always_200_c7_witness :
    (handleStatus { baseWorld with req := { baseReq with action := some "status" } }
        emptyStore).2.status = 200
    ∧ (handleStatus { baseWorld with req := { baseReq with action := some "status" } }
        emptyStore).2.body = Body.statusB false none none := by
  have h := handleStatus_always_200_c7
    { baseWorld with req := { baseReq with action := some "status" } } emptyStore
  exact ⟨h.1, h.2.1 rfl rfl rfl⟩

/-- Deleting a token that matches no session row leaves the store
unchanged (the DELETE is idempotent on absence). -/
theorem deleteSession_not_found (st : Store) (tok : String)
    (h : ∀ s ∈ st.sessions, s.sessionToken ≠ tok) :
    deleteSession st tok = st := by
  unfold deleteSession
  have hfix : st.sessions.filter (fun s => !(s.sessionToken == tok)) = st.sessions :=
    List.filter_eq_self.mpr (fun s hs => by simp [h s hs])
  rw [hfix]

/-- C8: sign-out with a cookie whose token matches no session row still
answers 200 with a success body and clears the cookie, leaving the
store unchanged (session destruction is idempotent); and a 500 answer
from sign-out happens only when the clear-cookie step itself cannot
run. -/
theorem handleSignOut_idempotent_c8 (w : World) (st : Store) (tok : String)
    (hcookie : w.req.sessionCookie = some tok)
    (hmiss : ∀ s ∈ st.sessions, s.sessionToken ≠ tok)
    (hclear : w.clearCookieFails = false) :
    (handleSignOut w st).1 = st
    ∧ (handleSignOut w st).2 =
        { status := 200, cookie := CookieEffect.clear, body := Body.signOutOk }
    ∧ (∀ (w₂ : World) (st₂ : Store),
        (handleSignOut w₂ st₂).2.status = 500 → w₂.clearCookieFails = true) := by
  refine ⟨?_, ?_, ?_⟩
  · simp [handleSignOut, getSessionToken, hcookie, hclear, destroySession,
      deleteSession_not_found st tok hmiss]
  · simp [handleSignOut, getSessionToken, hcookie, hclear]
  · intro w₂ st₂ h
    cases hc2 : w₂.clearCookieFails with
    | true => rfl
    | false =>
      exfalso
      simp [handleSignOut, hc2] at h

/-- Witness for C8 at a concrete stale cookie over an empty store. -/
theorem handleSignOut_idempotent_c8_witness :
    (handleSignOut
        { baseWorld with
          req := { baseReq with
                    method := "POST"
                    action := some "signout"
                    sessionCookie := some "stale" } }
        emptyStore).1 = emptyStore
    ∧ (handleSignOut
        { baseWorld with
          req := { baseReq with
                    method := "POST"
                    action := some "signout"
                    sessionCookie := some "stale" } }
        emptyStore).2 =
        { status := 200, cookie := CookieEffect.clear, body := Body.signOutOk } := by
  have h := handleSignOut_idempotent_c8
    { baseWorld with
      req := { baseReq with
                method := "POST"
                action := some "signout"
                sessionCookie := some "stale" } }
    emptyStore "stale" rfl (by intro s hs; simp [emptyStore] at hs) rfl
  exact ⟨h.1, h.2.1⟩

/-- C9 (amended): for a non-OPTIONS request, a present, nonempty action
value outside the four known ones answers 400; and each recognized
action invoked with the wrong (non-OPTIONS) method answers 405 — in
particular callback via POST. -/
theorem handler_dispatch_c9 (w : World) (st : Store)
    (hm : ¬w.req.method = "OPTIONS") :
    (∀ a : String, w.req.action = some a → ¬a = "" →
        ¬a = "signin" → ¬a = "signout" → ¬a = "status" → ¬a = "callback" →
        (handler w st).2.status = 400)
    ∧ (effectiveAction w.req = "signin" → ¬w.req.method = "GET" →
        (handler w st).2.status = 405)
    ∧ (effectiveAction w.req = "signout" → ¬w.req.method = "POST" →
        (handler w st).2.status = 405)
    ∧ (effectiveAction w.req = "status" → ¬w.req.method = "GET" →
        (handler w st).2.status = 405)
    ∧ (effectiveAction w.req = "callback" → ¬w.req.method = "GET" →
        (handler w st).2.status = 405) := by
  refine ⟨?_, ?_, ?_, ?_, ?_⟩
  · intro a ha h0 h1 h2 h3 h4
    have heff : effectiveAction w.req = a := by simp [effectiveAction, ha, h0]
    simp [handler, heff, hm, h1, h2, h3, h4]
  · intro heff hg
    simp [handler, heff, hm, hg]
  · intro heff hg
    simp [handler, heff, hm, hg]
  · intro heff hg
    simp [handler, heff, hm, hg]
  · intro heff hg
    simp [handler, heff, hm, hg]

/-- Witness for C9 (amended): a bogus action yields 400 and callback
via POST yields 405, at concrete requests. -/
theorem handler_dispatch_c9_witness :
    (handler { baseWorld with req := { baseReq with action := some "bogus" } }
        emptyStore).2.status = 400
    ∧ (handler { baseWorld with req := { baseReq with method := "POST" } }
        emptyStore).2.status = 405 := by
  constructor
  · exact (handler_dispatch_c9
      { baseWorld with req := { baseReq with action := some "bogus" } }
      emptyStore (by decide)).1 "bogus" rfl
      (by decide) (by decide) (by decide) (by decide) (by decide)
  · exact (handler_dispatch_c9
      { baseWorld with req := { baseReq with method := "POST" } }
      emptyStore (by decide)).2.2.2.2 (by decide) (by decide)

/-- C9 as frozen is violated by an empty-valued action parameter: the
value `""` is not one of the four known actions, yet the handler
answers 200 (it falls back to the status action) rather than 400. -/
theorem handler_c9_counterexample :
    (handler
        { baseWorld with
          req := { baseReq with action := some "" }
          dbConfigured := false }
        emptyStore).2.status = 200
    ∧ ¬(handler
        { baseWorld with
          req := { baseReq with action := some "" }
          dbConfigured := false }
        emptyStore).2.status = 400 := by
  constructor
  · rfl
  · decide

/-- C10: a non-OPTIONS request with a missing or empty action value is
dispatched exactly as an explicit status request, and in particular is
never answered 400. -/
theorem handler_default_status_c10 (w : World) (st : Store)
    (hm : ¬w.req.method = "OPTIONS")
    (ha : w.req.action = none ∨ w.req.action = some "") :
    handler w st = handler { w with req := { w.req with action := some "status" } } st
    ∧ ¬(handler w st).2.status = 400 := by
  have heff : effectiveAction w.req = "status" := by
    rcases ha with h | h <;> simp [effectiveAction, h]
  have heff2 : effectiveAction { w.req with action := some "status" } = "status" := by
    simp [effectiveAction]
  constructor
  · show handler w st = handler { w with req := { w.req with action := some "status" } } st
    unfold handler
    rw [heff, heff2]
    simp only [hm, if_false, if_neg]
    rfl
  · simp only [handler, heff]
    simp [hm]
    by_cases hg : w.req.method = "GET"
    · simp [hg, handleStatus_status_200 w st]
    · simp [hg]

/-- Witness for C10 at a concrete GET request with no action value. -/
theorem handler_default_status_c10_witness :
    handler { baseWorld with req := { baseReq with action := none } } emptyStore =
      handler { baseWorld with req := { baseReq with action := some "status" } }
        emptyStore
    ∧ ¬(handler { baseWorld with req := { baseReq with action := none } }
        emptyStore).2.status = 400 := by
  have h := handler_default_status_c10
    { baseWorld with req := { baseReq with action := none } } emptyStore
    (by decide) (Or.inl rfl)
  exact h

end AuthSpec
